import Mathlib

/-!
Shallow embedding of the geoscript-js configuration/wrapper layer.

Embedded from source:
- src/lib/geoscript/feature/schema.js : prepConfig, Schema (constructor, clone,
  name, fields, get, fieldNames, config) and the factory registration at the
  bottom of the module.
- src/unnamed/part_001 (style Shape symbolizer) : the string-shorthand
  constructor normalization, the lazily cached underlying point symbolizer
  handle, and the opacity setter.

Modules of this repository that the claims depend on but whose source is not
under src/ (feature/field.js, factory.js, util.js, filter Expression) are
modelled from the spec; each such definition carries a doc comment starting
with Modelled from the spec.
-/

namespace GeoScript

/-- Plain configuration mapping for a field, as produced by the config accessor
of a Field wrapper: a name, a type string, and an optional projection code. -/
structure FieldConfig where
  name : String
  type : String
  projection : Option String := none
deriving Repr, DecidableEq

/-- Modelled from the spec: the Field wrapper class (feature/field.js is not
under src/). A wrapper owning the engine attribute descriptor for one field;
it exposes name, type and optional projection, and a config accessor that
returns every settable property. -/
structure Field where
  name : String
  type : String
  projection : Option String := none
deriving Repr, DecidableEq

/-- Modelled from the spec: Field construction from a plain configuration
mapping, written new Field(config) in schema.js. -/
def Field.ofConfig (c : FieldConfig) : Field :=
  { name := c.name, type := c.type, projection := c.projection }

/-- Modelled from the spec: the config accessor of the Field wrapper returns a
plain mapping with every settable property of the field. -/
def Field.config (f : Field) : FieldConfig :=
  { name := f.name, type := f.type, projection := f.projection }

/-- An element of a fields array in a configuration: either an already wrapped
Field instance or a raw configuration mapping. The Schema constructor
(schema.js line 44) normalizes raw entries with new Field(field). -/
inductive FieldEntry where
  | wrapped (f : Field)
  | raw (c : FieldConfig)
deriving Repr, DecidableEq

/-- The name a fields-array element exposes, written configField.name in
Schema clone (schema.js line 75). -/
def entryName : FieldEntry → String
  | .wrapped f => f.name
  | .raw c => c.name

/-- A JavaScript value sitting under the fields key of a configuration
mapping: either an actual array of field entries, or any other value. A
non-array value carries only its truthiness; it has no forEach method. -/
inductive FieldsVal where
  | arr (l : List FieldEntry)
  | other (truthy : Bool)
deriving Repr, DecidableEq

/-- A configuration mapping for a schema: the keys schema.js reads. A missing
key is none. -/
structure MapConfig where
  type : Option String := none
  name : Option String := none
  fields : Option FieldsVal := none
deriving Repr, DecidableEq

/-- Input accepted by prepConfig in schema.js: an array (RHS of
config instanceof Array) or a plain mapping. -/
inductive SchemaInput where
  | arr (l : List FieldEntry)
  | map (c : MapConfig)
deriving Repr, DecidableEq

/-- prepConfig (schema.js lines 18 to 25): an array is wrapped as a mapping
with the array under the fields key; a mapping is shallow-copied key by key
into a fresh object via UTIL.apply. -/
def prepConfig : SchemaInput → MapConfig
  | .arr l => { fields := some (.arr l) }
  | .map c => { type := c.type, name := c.name, fields := c.fields }

/-- JavaScript truthiness of the fields value: a missing key is falsy, an
array is truthy, other values carry their own truthiness. -/
def fieldsTruthy : Option FieldsVal → Bool
  | none => false
  | some (.arr _) => true
  | some (.other t) => t

/-- Whether the fields value has a forEach method: only actual arrays do. -/
def fieldsHasForEach : Option FieldsVal → Bool
  | some (.arr _) => true
  | _ => false

/-- The expression config.name or the string feature (schema.js line 42):
JavaScript or-defaulting, so a missing name and the empty string both fall
back to the default. -/
def jsOrFeature : Option String → String
  | none => "feature"
  | some s => if s = "" then "feature" else s

/-- Modelled from the spec: names exported by the geom module (not under
src/); GEOM indexed at field.type (schema.js line 47) is truthy exactly for
these. -/
def geomTypes : List String :=
  ["Point", "LineString", "Polygon", "MultiPoint", "MultiLineString",
   "MultiPolygon", "GeometryCollection", "Geometry", "Bounds"]

/-- Truthiness of GEOM indexed at a type string. -/
def isGeomType (t : String) : Bool :=
  geomTypes.contains t

/-- One call made to the external engine collaborator: builder construction
and the builder methods used by the Schema constructor. -/
inductive EngineCall where
  | newBuilder
  | setName (n : String)
  | setCRS (p : String)
  | add (f : Field)
  | buildFeatureType
deriving Repr, DecidableEq

/-- The engine feature type built by SimpleFeatureTypeBuilder: a local name,
the attribute descriptors in the order they were added, and the coordinate
reference system set last. Descriptors are modelled directly as Field
values, so the Field adapter from an engine descriptor is the identity. -/
structure FeatureType where
  name : String
  descriptors : List Field
  crs : Option String := none
deriving Repr, DecidableEq

/-- The Schema wrapper: owns the engine feature type handle. -/
structure Schema where
  _schema : FeatureType
deriving Repr, DecidableEq

/-- Normalization of a fields-array entry in the Schema constructor
(schema.js lines 44 to 46): an entry that is not a Field instance is passed
to new Field. -/
def normalizeEntry : FieldEntry → Field
  | .wrapped f => f
  | .raw c => Field.ofConfig c

/-- Engine calls performed for one field of the constructor loop (schema.js
lines 43 to 54): setCRS when the field is geometric and carries a truthy
projection, then add. -/
def fieldCalls (f : Field) : List EngineCall :=
  (if isGeomType f.type then
    match f.projection with
    | some p => [.setCRS p]
    | none => []
  else []) ++ [.add f]

/-- The engine calls of the whole constructor loop, in field order. -/
def traceOfFields (fields : List Field) : List EngineCall :=
  fields.foldr (fun f acc => fieldCalls f ++ acc) []

/-- The coordinate reference system the builder holds after the constructor
loop: the projection of the last geometric field that carried one. -/
def foldCRS (fields : List Field) : Option String :=
  fields.foldl (fun acc f =>
    if isGeomType f.type then
      match f.projection with
      | some p => some p
      | none => acc
    else acc) none

/-- Errors raised by the wrapper layer during construction. -/
inductive SchemaError where
  | invalidConfiguration (msg : String)
deriving Repr, DecidableEq

/-- The Schema constructor on a present configuration (schema.js lines 34 to
57), paired with the list of engine calls it performs. The configuration is
normalized by prepConfig; when the fields value is missing, falsy, or has no
forEach method, the constructor throws before any engine object is touched.
Otherwise it builds the feature type: one builder construction, setName with
the or-defaulted name, the per-field calls, and the final buildFeatureType. -/
def schemaNewTraced (input : SchemaInput) : Except SchemaError Schema × List EngineCall :=
  let config := prepConfig input
  if !(fieldsTruthy config.fields) || !(fieldsHasForEach config.fields) then
    (.error (.invalidConfiguration "Construct schema with a fields array."), [])
  else
    match config.fields with
    | some (.arr entries) =>
      let name := jsOrFeature config.name
      let fields := entries.map normalizeEntry
      let ft : FeatureType :=
        { name := name, descriptors := fields, crs := foldCRS fields }
      (.ok ⟨ft⟩,
        [.newBuilder, .setName name] ++ traceOfFields fields ++ [.buildFeatureType])
    | _ =>
      (.error (.invalidConfiguration "Construct schema with a fields array."), [])

/-- The Schema constructor, result only. -/
def schemaNew (input : SchemaInput) : Except SchemaError Schema :=
  (schemaNewTraced input).1

/-- Modelled from the spec: the static Field adapter from an engine attribute
descriptor (feature/field.js is not under src/). Descriptors are modelled
directly as Field values, so the adapter is the identity. -/
def Field.from_ (descriptor : Field) : Field :=
  descriptor

/-- The fields getter (schema.js lines 135 to 140): maps the engine attribute
descriptors through the Field adapter. -/
def Schema.fields (s : Schema) : List Field :=
  s._schema.descriptors.map Field.from_

/-- The name getter (schema.js lines 106 to 108): the local part of the
engine feature type name. -/
def Schema.name (s : Schema) : String :=
  s._schema.name

/-- The fieldNames getter (schema.js lines 169 to 174). -/
def Schema.fieldNames (s : Schema) : List String :=
  s._schema.descriptors.map Field.name

/-- The loop body of Schema get (schema.js lines 151 to 161): scan the fields
in order, stop at the first whose name equals the argument, return undefined
when none matches. -/
def getLoop (fields : List Field) (name : String) : Option Field :=
  match fields with
  | [] => none
  | f :: rest => if f.name = name then some f else getLoop rest name

/-- Schema get (schema.js lines 151 to 161). -/
def Schema.get (s : Schema) (name : String) : Option Field :=
  getLoop s.fields name

/-- The config accessor (schema.js lines 179 to 185): a type discriminator,
the current name, and the config of every field. -/
def Schema.config (s : Schema) : MapConfig :=
  { type := some "Schema",
    name := some s.name,
    fields := some (.arr (s.fields.map (fun f => .raw f.config))) }

/-- Schema clone (schema.js lines 65 to 97). First pass over the existing
fields: each is replaced by the first same-named entry of the override fields
array when one exists and kept otherwise; second pass appends the override
entries whose names match no existing field, in override order. A fresh
Schema is then constructed from the merged configuration, its name taken
from the override configuration when present and truthy, from this schema
otherwise. -/
def Schema.clone (s : Schema) (config : Option MapConfig) : Except SchemaError Schema :=
  let configFields : List FieldEntry :=
    match config with
    | some c =>
      match c.fields with
      | some (.arr l) => l
      | _ => []
    | none => []
  let fields := s.fields.map (fun field =>
    match configFields.find? (fun cf => entryName cf == field.name) with
    | some cf => cf
    | none => .wrapped field)
  let existingNames := s.fields.map Field.name
  let appended := configFields.filter (fun cf => !(existingNames.contains (entryName cf)))
  let cloneName : Option String :=
    match config with
    | some c =>
      match c.name with
      | some n => if n = "" then some s.name else some n
      | none => some s.name
    | none => some s.name
  schemaNew (.map { name := cloneName, fields := some (.arr (fields ++ appended)) })

/-- Modelled from the spec: a Factory Entry of the registry (factory.js is
not under src/) pairs a predicate handles on configurations with the wrapper
constructor it guards. The handles predicate registered for Schema is
embedded below from schema.js lines 212 to 217. -/
structure Factory (γ : Type) (α : Type) where
  handles : γ → Bool
  construct : γ → α

/-- Modelled from the spec: the dispatcher create (factory.js is not under
src/). The registry is the append-only list of registered entries in
registration order; create scans it top to bottom and constructs with the
first entry whose handles predicate returns true on the configuration. The
none result models the NoMatchingFactory error. -/
def create {γ α : Type} (registry : List (Factory γ α)) (config : γ) : Option α :=
  match registry with
  | [] => none
  | e :: rest => if e.handles config then some (e.construct config) else create rest config

/-- The handles predicate registered for Schema (schema.js lines 212 to 217):
normalize with prepConfig and test whether the fields value is an Array. -/
def schemaFactoryHandles (config : SchemaInput) : Bool :=
  match (prepConfig config).fields with
  | some (.arr _) => true
  | _ => false

/-- Modelled from the spec: a filter Expression wrapper value (the filter
module is not under src/). Expression.literal wraps a number or a string;
other expressions carry their text. -/
inductive Expression where
  | literal (v : ℚ)
  | literalText (s : String)
  | wrapped (tag : String)
deriving Repr, DecidableEq

/-- The value assigned to the Shape opacity property, split by the JavaScript
typeof tests of the setter: a number, an Expression instance, another object
that new Expression either accepts or rejects, or a non-object value carrying
its typeof string. -/
inductive OpacityInput where
  | num (v : ℚ)
  | expr (e : Expression)
  | obj (convertsTo : Option Expression)
  | nonObject (typeName : String)

/-- The engine graphic of the Shape symbolizer (SLD.graphic), holding the
opacity and rotation expressions written through the setters. The source
documents the default opacity as 1; the engine default rotation is 0. -/
structure Graphic where
  opacity : Expression := .literal 1
  rotation : Expression := .literal 0
deriving Repr, DecidableEq

/-- The Shape opacity setter (part_001 lines 94 to 110). A number outside
the interval from 0 to 1 raises a range error naming the property and the
constraint; a valid number is wrapped as a literal Expression; a non-object
value raises a typeof error; an object that is not an Expression is passed to
new Expression, and failure of that conversion raises an error. On success
the expression is written to the engine graphic. -/
def Shape.setOpacity (g : Graphic) (input : OpacityInput) : Except String Graphic :=
  match input with
  | .num v =>
    if v < 0 ∨ v > 1 then
      .error "Opacity must be a number between 0 and 1 (inclusive)"
    else
      .ok { g with opacity := .literal v }
  | .nonObject t => .error ("Shape opacity cannot be type: " ++ t)
  | .expr e => .ok { g with opacity := e }
  | .obj (some e) => .ok { g with opacity := e }
  | .obj none => .error "Shape opacity must be a number or an expression"

/-- A configuration mapping for the Shape symbolizer: the keys the claims
touch; a missing key is none. -/
structure ShapeMapConfig where
  name : Option String := none
  size : Option ℚ := none
deriving Repr, DecidableEq

/-- Input accepted by the Shape constructor (part_001 lines 25 to 32): a
primitive string shorthand or a configuration mapping. -/
inductive ShapeInput where
  | str (s : String)
  | map (c : ShapeMapConfig)
deriving Repr, DecidableEq

/-- The Shape constructor normalization (part_001 lines 25 to 32): a string
is wrapped as a mapping holding it under the name key; any other
configuration is passed through unchanged. -/
def shapeNormalizeConfig : ShapeInput → ShapeMapConfig
  | .str s => { name := some s }
  | .map c => c

/-- The private lazy cache of a Shape wrapper: the memoized engine point
symbolizer handle under the key of the derived handle, or none before the
first access. Engine handles are modelled by their allocation number, so
two handles are reference-equal exactly when the numbers are equal. -/
structure ShapeCache where
  _symbolizer : Option Nat := none
deriving Repr, DecidableEq

/-- The engine style builder: allocates a fresh point symbolizer handle on
every createPointSymbolizer call. -/
structure StyleBuilder where
  counter : Nat
deriving Repr, DecidableEq

/-- The engine call createPointSymbolizer: returns a fresh handle. -/
def createPointSymbolizer (b : StyleBuilder) : Nat × StyleBuilder :=
  (b.counter, ⟨b.counter + 1⟩)

/-- The lazily cached symbolizer getter (part_001 lines 34 to 42): when the
key is absent from the cache, create a point symbolizer through the engine
builder and store it; return the cached handle. Returns the handle, the
cache, and the builder after the access. -/
def Shape.getSymbolizer (cache : ShapeCache) (b : StyleBuilder) :
    Nat × ShapeCache × StyleBuilder :=
  match cache._symbolizer with
  | some h => (h, cache, b)
  | none =>
    let hb := createPointSymbolizer b
    (hb.1, { _symbolizer := some hb.1 }, hb.2)

/-- Modelled from the spec: the plain configuration mapping produced by the
config accessor of the Expression wrapper (the filter module is not under
src/), one shape per Expression kind; new Expression on such a mapping
reconstructs the expression. -/
inductive ExpressionConfig where
  | literal (v : ℚ)
  | literalText (s : String)
  | cql (text : String)
deriving Repr, DecidableEq

/-- Modelled from the spec: the config accessor of the Expression wrapper
returns a plain mapping carrying the current expression content. -/
def Expression.config : Expression → ExpressionConfig
  | .literal v => .literal v
  | .literalText s => .literalText s
  | .wrapped tag => .cql tag

/-- Modelled from the spec: new Expression applied to a configuration
mapping produced by the config accessor. -/
def Expression.ofConfig : ExpressionConfig → Expression
  | .literal v => .literal v
  | .literalText s => .literalText s
  | .cql tag => .wrapped tag

/-- Modelled from the spec: the Expression adapter from an engine expression
(Expression.from_); engine expressions are modelled directly as Expression
values, so the adapter is the identity. -/
def Expression.from_ (e : Expression) : Expression :=
  e

/-- Modelled from the spec: the Fill wrapper (style/fill.js is not under
src/), holding its settable properties. -/
structure Fill where
  color : Option String := none
deriving Repr, DecidableEq

/-- Modelled from the spec: the config mapping of a Fill wrapper, a type
discriminator plus every settable property. -/
structure FillConfig where
  type : String := "Fill"
  color : Option String := none
deriving Repr, DecidableEq

/-- Modelled from the spec: the Fill config accessor. -/
def Fill.config (f : Fill) : FillConfig :=
  { type := "Fill", color := f.color }

/-- Modelled from the spec: new Fill on a configuration mapping. -/
def Fill.ofConfig (c : FillConfig) : Fill :=
  { color := c.color }

/-- Modelled from the spec: the Fill adapter from an engine fill handle;
engine fills are modelled directly as Fill values. -/
def Fill.from_ (f : Fill) : Fill :=
  f

/-- Modelled from the spec: the Stroke wrapper (style/stroke.js is not under
src/), holding its settable properties. -/
structure Stroke where
  color : Option String := none
  width : Option ℚ := none
deriving Repr, DecidableEq

/-- Modelled from the spec: the config mapping of a Stroke wrapper. -/
structure StrokeConfig where
  type : String := "Stroke"
  color : Option String := none
  width : Option ℚ := none
deriving Repr, DecidableEq

/-- Modelled from the spec: the Stroke config accessor. -/
def Stroke.config (st : Stroke) : StrokeConfig :=
  { type := "Stroke", color := st.color, width := st.width }

/-- Modelled from the spec: new Stroke on a configuration mapping. -/
def Stroke.ofConfig (c : StrokeConfig) : Stroke :=
  { color := c.color, width := c.width }

/-- Modelled from the spec: the Stroke adapter from an engine stroke handle;
engine strokes are modelled directly as Stroke values. -/
def Stroke.from_ (st : Stroke) : Stroke :=
  st

/-- The engine mark of the Shape symbolizer (SLD.mark), holding the well
known name, size, fill and stroke written through the setters. The source
documents the default name square and the default size 6. -/
structure Mark where
  wellKnownName : Expression := .literalText "square"
  size : Expression := .literal 6
  fill : Fill := {}
  stroke : Stroke := {}
deriving Repr, DecidableEq

/-- The Shape wrapper state seen by the accessor layer: the mark and graphic
views of its underlying point symbolizer. -/
structure Shape where
  mark : Mark := {}
  graphic : Graphic := {}
deriving Repr, DecidableEq

/-- Input to the Shape name setter (part_001 lines 60 to 67): a string, an
Expression instance, or another value passed to new Expression. -/
inductive NameInput where
  | str (s : String)
  | expr (e : Expression)
  | obj (c : ExpressionConfig)

/-- The Shape name setter (part_001 lines 60 to 67): a string becomes a
literal expression, a non-Expression value goes through new Expression, and
the resulting engine expression is written to the mark. -/
def Shape.setName (s : Shape) : NameInput → Shape
  | .str t => { s with mark := { s.mark with wellKnownName := .literalText t } }
  | .expr e => { s with mark := { s.mark with wellKnownName := e } }
  | .obj c => { s with mark := { s.mark with wellKnownName := Expression.ofConfig c } }

/-- Input to the Shape size setter (part_001 lines 80 to 85): an Expression
instance, or any other value passed to new Expression. -/
inductive SizeInput where
  | expr (e : Expression)
  | raw (c : ExpressionConfig)

/-- The Shape size setter (part_001 lines 80 to 85). -/
def Shape.setSize (s : Shape) : SizeInput → Shape
  | .expr e => { s with mark := { s.mark with size := e } }
  | .raw c => { s with mark := { s.mark with size := Expression.ofConfig c } }

/-- The Shape rotation setter (part_001 lines 120 to 133): the same branch
structure as the opacity setter but without a range check. -/
def Shape.setRotation (g : Graphic) (input : OpacityInput) : Except String Graphic :=
  match input with
  | .num v => .ok { g with rotation := .literal v }
  | .nonObject t => .error ("Shape rotation cannot be type: " ++ t)
  | .expr e => .ok { g with rotation := e }
  | .obj (some e) => .ok { g with rotation := e }
  | .obj none => .error "Shape rotation must be a number or an expression"

/-- Input to the Shape fill setter (part_001 lines 143 to 148): a Fill
instance or a configuration passed to new Fill. -/
inductive FillInput where
  | fill (f : Fill)
  | config (c : FillConfig)

/-- The Shape fill setter (part_001 lines 143 to 148). -/
def Shape.setFill (s : Shape) : FillInput → Shape
  | .fill f => { s with mark := { s.mark with fill := f } }
  | .config c => { s with mark := { s.mark with fill := Fill.ofConfig c } }

/-- Input to the Shape stroke setter (part_001 lines 153 to 158). -/
inductive StrokeInput where
  | stroke (st : Stroke)
  | config (c : StrokeConfig)

/-- The Shape stroke setter (part_001 lines 153 to 158). -/
def Shape.setStroke (s : Shape) : StrokeInput → Shape
  | .stroke st => { s with mark := { s.mark with stroke := st } }
  | .config c => { s with mark := { s.mark with stroke := Stroke.ofConfig c } }

/-- The Shape name getter (part_001 lines 68 to 70). -/
def Shape.name (s : Shape) : Expression :=
  Expression.from_ s.mark.wellKnownName

/-- The Shape size getter (part_001 lines 86 to 88). -/
def Shape.size (s : Shape) : Expression :=
  Expression.from_ s.mark.size

/-- The Shape opacity getter (part_001 lines 111 to 113). -/
def Shape.opacity (s : Shape) : Expression :=
  Expression.from_ s.graphic.opacity

/-- The Shape rotation getter (part_001 lines 139 to 141). -/
def Shape.rotation (s : Shape) : Expression :=
  Expression.from_ s.graphic.rotation

/-- The Shape fill getter (part_001 lines 149 to 151). -/
def Shape.fill (s : Shape) : Fill :=
  Fill.from_ s.mark.fill

/-- The Shape stroke getter (part_001 lines 159 to 161). -/
def Shape.stroke (s : Shape) : Stroke :=
  Stroke.from_ s.mark.stroke

/-- The plain configuration mapping produced by the Shape config accessor
(part_001 lines 163 to 173): the type discriminator and the config of every
settable property, each obtained recursively from the nested wrapper. -/
structure ShapeConfig where
  type : String := "Shape"
  name : ExpressionConfig
  size : ExpressionConfig
  opacity : ExpressionConfig
  rotation : ExpressionConfig
  fill : FillConfig
  stroke : StrokeConfig
deriving Repr, DecidableEq

/-- The Shape config accessor (part_001 lines 163 to 173). -/
def Shape.config (s : Shape) : ShapeConfig :=
  { type := "Shape",
    name := (Shape.name s).config,
    size := (Shape.size s).config,
    opacity := (Shape.opacity s).config,
    rotation := (Shape.rotation s).config,
    fill := (Shape.fill s).config,
    stroke := (Shape.stroke s).config }

/-- Modelled from the spec: construction of a Shape from a full
configuration mapping. The Shape constructor (part_001 lines 25 to 32)
delegates to the Symbolizer constructor (style/symbolizer.js is not under
src/), which applies each configuration key through the corresponding
setter embedded above; the type discriminator is not a setter and is
ignored. The opacity and rotation values, being mappings and not Expression
instances, take the object branch of their setters, where new Expression
succeeds on every wrapper-produced configuration. -/
def shapeNew (c : ShapeConfig) : Except String Shape :=
  let s1 := Shape.setName {} (.obj c.name)
  let s2 := Shape.setSize s1 (.raw c.size)
  match Shape.setOpacity s2.graphic (.obj (some (Expression.ofConfig c.opacity))) with
  | .error e => .error e
  | .ok g1 =>
    match Shape.setRotation g1 (.obj (some (Expression.ofConfig c.rotation))) with
    | .error e => .error e
    | .ok g2 =>
      let s3 := { s2 with graphic := g2 }
      let s4 := Shape.setFill s3 (.config c.fill)
      let s5 := Shape.setStroke s4 (.config c.stroke)
      .ok s5

/-- A JavaScript object as a property map from keys to value identities;
values are shared by reference, so a shallow copy copies the map but shares
the values. -/
abbrev PropMap : Type := List (String × Nat)

/-- A heap of allocated objects; an object reference is an index. -/
structure Heap where
  objs : List PropMap

/-- Allocate a new object, returning the heap and the fresh reference. -/
def Heap.alloc (h : Heap) (o : PropMap) : Heap × Nat :=
  (⟨h.objs ++ [o]⟩, h.objs.length)

/-- Read the property map of an object. -/
def Heap.read (h : Heap) (r : Nat) : PropMap :=
  (h.objs[r]?).getD []

/-- Overwrite the property map of an object in place. -/
def Heap.write (h : Heap) (r : Nat) (o : PropMap) : Heap :=
  ⟨h.objs.set r o⟩

/-- Assign one property on a property map: replace the binding when the key
is present, append it otherwise. -/
def setProp (o : PropMap) (k : String) (v : Nat) : PropMap :=
  match o with
  | [] => [(k, v)]
  | kv :: rest => if kv.1 = k then (k, v) :: rest else kv :: setProp rest k v

/-- Copy every property of the source map onto the target map, in source
order. -/
def copyProps (t s : PropMap) : PropMap :=
  s.foldl (fun acc kv => setProp acc kv.1 kv.2) t

/-- Modelled from the spec: UTIL.apply (util.js is not under src/) copies
each enumerable property of the source object onto the target object. -/
def applyProps (h : Heap) (target source : Nat) : Heap :=
  h.write target (copyProps (h.read target) (h.read source))

/-- The mapping branch of prepConfig (schema.js line 22) over the explicit
heap: allocate a fresh empty object and copy the properties of the
caller-supplied configuration onto it. -/
def prepConfigHeap (h : Heap) (config : Nat) : Heap × Nat :=
  let alloc1 := h.alloc []
  (applyProps alloc1.1 alloc1.2 config, alloc1.2)

/-! ## Helper lemmas -/

theorem jsOrFeature_ne_empty (o : Option String) : jsOrFeature o ≠ "" := by
  cases o with
  | none => simp [jsOrFeature]
  | some s =>
    by_cases hs : s = "" <;> simp [jsOrFeature, hs]

theorem Field.ofConfig_config (f : Field) : Field.ofConfig f.config = f := rfl

theorem Schema.fields_eq (s : Schema) : Schema.fields s = s._schema.descriptors := by
  rw [Schema.fields]
  have h : Field.from_ = id := rfl
  rw [h, List.map_id]

theorem schemaNewTraced_err (input : SchemaInput)
    (h : fieldsTruthy ((prepConfig input).fields) = false ∨
         fieldsHasForEach ((prepConfig input).fields) = false) :
    schemaNewTraced input =
      (.error (.invalidConfiguration "Construct schema with a fields array."), []) := by
  have hc : (!(fieldsTruthy (prepConfig input).fields) ||
      !(fieldsHasForEach (prepConfig input).fields)) = true := by
    rcases h with h | h <;> simp [h]
  unfold schemaNewTraced
  simp only [hc, if_true]

theorem schemaNewTraced_arr (C : SchemaInput) (entries : List FieldEntry)
    (hf : (prepConfig C).fields = some (.arr entries)) :
    schemaNewTraced C =
      (.ok ⟨{ name := jsOrFeature (prepConfig C).name,
              descriptors := entries.map normalizeEntry,
              crs := foldCRS (entries.map normalizeEntry) }⟩,
       [.newBuilder, .setName (jsOrFeature (prepConfig C).name)] ++
         traceOfFields (entries.map normalizeEntry) ++ [.buildFeatureType]) := by
  unfold schemaNewTraced
  simp [hf, fieldsTruthy, fieldsHasForEach]

theorem schemaNew_map_arr (m : MapConfig) (entries : List FieldEntry)
    (hm : m.fields = some (.arr entries)) :
    schemaNew (.map m) =
      .ok ⟨{ name := jsOrFeature m.name,
             descriptors := entries.map normalizeEntry,
             crs := foldCRS (entries.map normalizeEntry) }⟩ := by
  rw [schemaNew, schemaNewTraced_arr (.map m) entries hm]
  rfl

theorem schemaNew_ok_elim (C : SchemaInput) (s : Schema) (h : schemaNew C = .ok s) :
    ∃ entries, (prepConfig C).fields = some (.arr entries) ∧
      s = ⟨{ name := jsOrFeature (prepConfig C).name,
             descriptors := entries.map normalizeEntry,
             crs := foldCRS (entries.map normalizeEntry) }⟩ := by
  rcases hf : (prepConfig C).fields with _ | fv
  · rw [schemaNew, schemaNewTraced_err C (Or.inl (by simp [hf, fieldsTruthy]))] at h
    exact absurd h (by simp)
  · rcases fv with l | t
    · refine ⟨l, rfl, ?_⟩
      rw [schemaNew, schemaNewTraced_arr C l hf] at h
      exact (Except.ok.inj h).symm
    · rw [schemaNew, schemaNewTraced_err C (Or.inr (by simp [hf, fieldsHasForEach]))] at h
      exact absurd h (by simp)

theorem getLoop_of_forall_ne (fields : List Field) (n : String)
    (h : ∀ g ∈ fields, g.name ≠ n) : getLoop fields n = none := by
  induction fields with
  | nil => rfl
  | cons f rest ih =>
    rw [getLoop, if_neg (h f (by simp))]
    exact ih (fun g hg => h g (by simp [hg]))

theorem getLoop_append_first (l₁ l₂ : List Field) (f : Field) (n : String)
    (h₁ : ∀ g ∈ l₁, g.name ≠ n) (hf : f.name = n) :
    getLoop (l₁ ++ f :: l₂) n = some f := by
  induction l₁ with
  | nil => simp [getLoop, hf]
  | cons g rest ih =>
    rw [List.cons_append, getLoop, if_neg (h₁ g (by simp))]
    exact ih (fun g' hg' => h₁ g' (by simp [hg']))

/-! ## Claim theorems -/

/-- C6: configuration normalization wraps an ordered sequence as a mapping
holding it under the fields key (prepConfig, schema.js lines 18 to 25), and
wraps a primitive string as a mapping holding it under the name key (the
Shape constructor, part_001 lines 25 to 32). -/
theorem config_normalization_wraps (l : List FieldEntry) (s : String) :
    prepConfig (.arr l) = { type := none, name := none, fields := some (.arr l) } ∧
    shapeNormalizeConfig (.str s) = { name := some s, size := none } :=
  ⟨rfl, rfl⟩

/-- C4: when the normalized configuration has no fields value, or a fields
value without forEach, the Schema constructor raises the invalid
configuration error and performs no engine call at all: the traced
constructor returns the error together with an empty engine-call list. -/
theorem schema_failfast (input : SchemaInput)
    (h : fieldsTruthy ((prepConfig input).fields) = false ∨
         fieldsHasForEach ((prepConfig input).fields) = false) :
    schemaNewTraced input =
      (.error (.invalidConfiguration "Construct schema with a fields array."), []) :=
  schemaNewTraced_err input h

/-- Witness for C4 at the concrete input of an empty mapping, whose
normalized form has no fields value. -/
theorem schema_failfast_witness :
    (fieldsTruthy ((prepConfig (.map {})).fields) = false ∨
      fieldsHasForEach ((prepConfig (.map {})).fields) = false) ∧
    schemaNewTraced (.map {}) =
      (.error (.invalidConfiguration "Construct schema with a fields array."), []) :=
  ⟨Or.inl rfl, schema_failfast (.map {}) (Or.inl rfl)⟩

/-- C5: assigning a number below 0 or above 1 to the Shape opacity property
raises the range error naming the property and the 0 to 1 constraint, while
assigning 0, one half, or 1 succeeds and writes the literal expression. -/
theorem shape_opacity_range (g : Graphic) (v : ℚ) (h : v < 0 ∨ v > 1) :
    Shape.setOpacity g (.num v) =
      .error "Opacity must be a number between 0 and 1 (inclusive)" ∧
    Shape.setOpacity g (.num 0) = .ok { g with opacity := .literal 0 } ∧
    Shape.setOpacity g (.num (1/2)) = .ok { g with opacity := .literal (1/2) } ∧
    Shape.setOpacity g (.num 1) = .ok { g with opacity := .literal 1 } := by
  refine ⟨?_, ?_, ?_, ?_⟩
  · simp [Shape.setOpacity, h]
  · norm_num [Shape.setOpacity]
  · norm_num [Shape.setOpacity]
  · norm_num [Shape.setOpacity]

/-- Witness for C5 at the out-of-range value 2 on a default graphic. -/
theorem shape_opacity_range_witness :
    ((2 : ℚ) < 0 ∨ (2 : ℚ) > 1) ∧
    (Shape.setOpacity {} (.num 2) =
        .error "Opacity must be a number between 0 and 1 (inclusive)" ∧
      Shape.setOpacity {} (.num 0) = .ok { opacity := .literal 0 } ∧
      Shape.setOpacity {} (.num (1/2)) = .ok { opacity := .literal (1/2) } ∧
      Shape.setOpacity {} (.num 1) = .ok { opacity := .literal 1 }) :=
  ⟨by decide, shape_opacity_range {} 2 (by decide)⟩

/-- C8: the lazily cached symbolizer accessor computes and stores the engine
handle on the first read of an empty cache, returns the stored handle
unchanged on a cache that holds one, and on two consecutive reads the second
read returns the identical handle and leaves both the cache and the engine
builder untouched. -/
theorem shape_symbolizer_memoized (cache : ShapeCache) (b : StyleBuilder) :
    Shape.getSymbolizer { _symbolizer := none } b =
      (b.counter, { _symbolizer := some b.counter }, ⟨b.counter + 1⟩) ∧
    (∀ hdl, Shape.getSymbolizer { _symbolizer := some hdl } b =
      (hdl, { _symbolizer := some hdl }, b)) ∧
    (Shape.getSymbolizer (Shape.getSymbolizer cache b).2.1
        (Shape.getSymbolizer cache b).2.2).1 = (Shape.getSymbolizer cache b).1 ∧
    (Shape.getSymbolizer (Shape.getSymbolizer cache b).2.1
        (Shape.getSymbolizer cache b).2.2).2.1 = (Shape.getSymbolizer cache b).2.1 ∧
    (Shape.getSymbolizer (Shape.getSymbolizer cache b).2.1
        (Shape.getSymbolizer cache b).2.2).2.2 = (Shape.getSymbolizer cache b).2.2 := by
  refine ⟨rfl, fun hdl => rfl, ?_, ?_, ?_⟩ <;>
    rcases cache with ⟨_ | hdl⟩ <;>
      simp [Shape.getSymbolizer, createPointSymbolizer]

/-- C9: a Schema constructed from a configuration that omits the name key
carries the default name feature. -/
theorem schema_default_name (m : MapConfig) (entries : List FieldEntry)
    (hname : m.name = none) (hfields : m.fields = some (.arr entries)) :
    ∃ s, schemaNew (.map m) = .ok s ∧ Schema.name s = "feature" := by
  refine ⟨_, schemaNew_map_arr m entries hfields, ?_⟩
  simp [Schema.name, hname, jsOrFeature]

/-- Witness for C9 at the concrete configuration holding only an empty
fields array. -/
theorem schema_default_name_witness :
    (MapConfig.name { fields := some (.arr []) } = none) ∧
    ∃ s, schemaNew (.map { fields := some (.arr []) }) = .ok s ∧
      Schema.name s = "feature" :=
  ⟨rfl, schema_default_name { fields := some (.arr []) } [] rfl rfl⟩

/-- C10: Schema get returns the first field of the field order whose name
equals the argument, and returns undefined, not an error, when no field
carries that name. -/
theorem schema_get_spec (s : Schema) (n : String) :
    (∀ l₁ f l₂, Schema.fields s = l₁ ++ f :: l₂ → f.name = n →
      (∀ g ∈ l₁, g.name ≠ n) → Schema.get s n = some f) ∧
    ((∀ g ∈ Schema.fields s, g.name ≠ n) → Schema.get s n = none) := by
  constructor
  · intro l₁ f l₂ hsplit hf h₁
    rw [Schema.get, hsplit]
    exact getLoop_append_first l₁ l₂ f n h₁ hf
  · intro h
    rw [Schema.get]
    exact getLoop_of_forall_ne _ n h

/-- Witness for C10 on a concrete schema with two same-named fields: get
returns the first of them, and a name carried by no field returns none. -/
theorem schema_get_spec_witness :
    Schema.get ⟨{ name := "feature",
                  descriptors := [{ name := "A", type := "String" },
                                  { name := "B", type := "Integer" },
                                  { name := "B", type := "Double" }] }⟩ "B" =
      some { name := "B", type := "Integer" } ∧
    Schema.get ⟨{ name := "feature",
                  descriptors := [{ name := "A", type := "String" },
                                  { name := "B", type := "Integer" },
                                  { name := "B", type := "Double" }] }⟩ "Z" = none := by
  constructor
  · exact (schema_get_spec _ "B").1 [{ name := "A", type := "String" }]
      { name := "B", type := "Integer" } [{ name := "B", type := "Double" }]
      rfl rfl (by decide)
  · exact (schema_get_spec _ "Z").2 (by decide)

/-- C3: the dispatcher scans the registry in registration order and
constructs with the earliest entry whose handles predicate matches the
configuration, whatever matching entries were registered later; as create is
a pure function of the registry and the configuration, the selection is the
same on every invocation. -/
theorem create_first_match {γ α : Type} (r₁ r₂ : List (Factory γ α))
    (e : Factory γ α) (C : γ)
    (h₁ : ∀ e2 ∈ r₁, e2.handles C = false) (h₂ : e.handles C = true) :
    create (r₁ ++ e :: r₂) C = some (e.construct C) := by
  induction r₁ with
  | nil => simp [create, h₂]
  | cons e0 rest ih =>
    rw [List.cons_append, create, if_neg]
    · exact ih (fun e2 he2 => h₁ e2 (by simp [he2]))
    · simp [h₁ e0 (by simp)]

/-- Witness for C3: two entries both guarded by the Schema handles predicate
and both matching the empty array configuration; create picks the one
registered first. -/
theorem create_first_match_witness :
    Factory.handles { handles := schemaFactoryHandles, construct := fun _ => 1 }
      (SchemaInput.arr []) = true ∧
    create [{ handles := schemaFactoryHandles, construct := fun _ => 1 },
            { handles := schemaFactoryHandles, construct := fun _ => 2 }]
      (SchemaInput.arr []) = some 1 :=
  ⟨rfl, create_first_match []
    [{ handles := schemaFactoryHandles, construct := fun _ => 2 }]
    { handles := schemaFactoryHandles, construct := fun _ => 1 }
    (SchemaInput.arr []) (by simp) rfl⟩

theorem schemaNew_config_roundtrip (C : SchemaInput) (s : Schema)
    (h : schemaNew C = .ok s) :
    ∃ s2 : Schema, schemaNew (.map (Schema.config s)) = .ok s2 ∧
      Schema.config s2 = Schema.config s := by
  obtain ⟨entries, hf, hs⟩ := schemaNew_ok_elim C s h
  refine ⟨s, ?_, rfl⟩
  have hcfg : (Schema.config s).fields =
      some (.arr ((Schema.fields s).map (fun f => .raw f.config))) := rfl
  rw [schemaNew_map_arr (Schema.config s)
    ((Schema.fields s).map (fun f => .raw f.config)) hcfg]
  have hD : ((Schema.fields s).map (fun f => FieldEntry.raw f.config)).map normalizeEntry
      = s._schema.descriptors := by
    rw [Schema.fields_eq, List.map_map]
    have hid : (normalizeEntry ∘ fun f => FieldEntry.raw f.config) = id := by
      funext f
      rfl
    rw [hid, List.map_id]
  have hname : jsOrFeature (Schema.config s).name = s._schema.name := by
    have h2 : s._schema.name ≠ "" := by
      rw [hs]
      exact jsOrFeature_ne_empty _
    have h1 : (Schema.config s).name = some s._schema.name := rfl
    rw [h1]
    simp [jsOrFeature, h2]
  rw [hD, hname]
  have hcrs : foldCRS s._schema.descriptors = s._schema.crs := by
    rw [hs]
  rw [hcrs]

theorem expression_ofConfig_config (e : Expression) :
    Expression.ofConfig e.config = e := by
  cases e <;> rfl

theorem fill_ofConfig_config (f : Fill) : Fill.ofConfig f.config = f := rfl

theorem stroke_ofConfig_config (st : Stroke) : Stroke.ofConfig st.config = st := rfl

theorem shapeNew_config (s : Shape) : shapeNew (Shape.config s) = .ok s := by
  unfold shapeNew Shape.config
  simp [Shape.setName, Shape.setSize, Shape.setOpacity, Shape.setRotation,
    Shape.setFill, Shape.setStroke, Shape.name, Shape.size, Shape.opacity,
    Shape.rotation, Shape.fill, Shape.stroke, Expression.from_, Fill.from_,
    Stroke.from_, expression_ofConfig_config, fill_ofConfig_config,
    stroke_ofConfig_config]

/-- C1: for both wrappers whose config accessors are in the sources, the
Schema of schema.js and the Shape symbolizer of part_001, constructing a
wrapper from a valid configuration, reading its config accessor,
constructing a second wrapper of the same type from that result and reading
its config accessor yields a value equal to the first config read; each
config is a mapping holding the type discriminator and the current value of
every settable property, obtained recursively through the config accessors
of the nested wrappers. -/
theorem config_roundtrip (C : SchemaInput) (s : Schema)
    (cs : ShapeConfig) (sh : Shape)
    (h1 : schemaNew C = .ok s) (h2 : shapeNew cs = .ok sh) :
    (∃ s2, schemaNew (.map (Schema.config s)) = .ok s2 ∧
      Schema.config s2 = Schema.config s) ∧
    (∃ sh2, shapeNew (Shape.config sh) = .ok sh2 ∧
      Shape.config sh2 = Shape.config sh) :=
  ⟨schemaNew_config_roundtrip C s h1, ⟨sh, shapeNew_config sh, rfl⟩⟩

/-- Witness for C1 at a concrete two-field schema configuration with a
projected geometry field, and a concrete shape configuration setting every
property. -/
theorem config_roundtrip_witness :
    schemaNew (.map
      { name := some "cities",
        fields := some (.arr
          [.raw { name := "the_geom", type := "Point", projection := some "EPSG:4326" },
           .raw { name := "name", type := "String" }]) }) =
      .ok ⟨{ name := "cities",
             descriptors := [{ name := "the_geom", type := "Point",
                               projection := some "EPSG:4326" },
                             { name := "name", type := "String" }],
             crs := some "EPSG:4326" }⟩ ∧
    shapeNew
      { name := .literalText "circle", size := .literal 8,
        opacity := .literal 1, rotation := .literal 45,
        fill := { color := some "#ff0000" },
        stroke := { color := some "#000000", width := some 2 } } =
      .ok ⟨{ wellKnownName := .literalText "circle", size := .literal 8,
             fill := { color := some "#ff0000" },
             stroke := { color := some "#000000", width := some 2 } },
           { opacity := .literal 1, rotation := .literal 45 }⟩ ∧
    ((∃ s2, schemaNew (.map (Schema.config
        ⟨{ name := "cities",
           descriptors := [{ name := "the_geom", type := "Point",
                             projection := some "EPSG:4326" },
                           { name := "name", type := "String" }],
           crs := some "EPSG:4326" }⟩)) = .ok s2 ∧
      Schema.config s2 = Schema.config
        ⟨{ name := "cities",
           descriptors := [{ name := "the_geom", type := "Point",
                             projection := some "EPSG:4326" },
                           { name := "name", type := "String" }],
           crs := some "EPSG:4326" }⟩) ∧
    (∃ sh2, shapeNew (Shape.config
        ⟨{ wellKnownName := .literalText "circle", size := .literal 8,
           fill := { color := some "#ff0000" },
           stroke := { color := some "#000000", width := some 2 } },
         { opacity := .literal 1, rotation := .literal 45 }⟩) = .ok sh2 ∧
      Shape.config sh2 = Shape.config
        ⟨{ wellKnownName := .literalText "circle", size := .literal 8,
           fill := { color := some "#ff0000" },
           stroke := { color := some "#000000", width := some 2 } },
         { opacity := .literal 1, rotation := .literal 45 }⟩)) :=
  ⟨rfl, rfl, config_roundtrip
    (.map
      { name := some "cities",
        fields := some (.arr
          [.raw { name := "the_geom", type := "Point", projection := some "EPSG:4326" },
           .raw { name := "name", type := "String" }]) })
    ⟨{ name := "cities",
       descriptors := [{ name := "the_geom", type := "Point",
                         projection := some "EPSG:4326" },
                       { name := "name", type := "String" }],
       crs := some "EPSG:4326" }⟩
    { name := .literalText "circle", size := .literal 8,
      opacity := .literal 1, rotation := .literal 45,
      fill := { color := some "#ff0000" },
      stroke := { color := some "#000000", width := some 2 } }
    ⟨{ wellKnownName := .literalText "circle", size := .literal 8,
       fill := { color := some "#ff0000" },
       stroke := { color := some "#000000", width := some 2 } },
     { opacity := .literal 1, rotation := .literal 45 }⟩
    rfl rfl⟩

/-- C2: on a schema with fields a, b, c and an override configuration with
fields b2 and d, where b2 carries the name of b and the name of d is fresh,
clone replaces b in place by b2, keeps a and c, and appends d at the end. -/
theorem schema_clone_merge (nm : String) (crs : Option String)
    (a b c : Field) (b2 d : FieldConfig)
    (hab : a.name ≠ b.name) (hcb : c.name ≠ b.name) (hb2 : b2.name = b.name)
    (hda : d.name ≠ a.name) (hdb : d.name ≠ b.name) (hdc : d.name ≠ c.name) :
    ∃ s2, Schema.clone ⟨{ name := nm, descriptors := [a, b, c], crs := crs }⟩
        (some { fields := some (.arr [.raw b2, .raw d]) }) = .ok s2 ∧
      Schema.fields s2 = [a, Field.ofConfig b2, c, Field.ofConfig d] := by
  have n1 : ¬(b2.name = a.name) := hb2 ▸ Ne.symm hab
  have n3 : ¬(b2.name = c.name) := hb2 ▸ Ne.symm hcb
  have f1 : (b.name == a.name) = false := beq_eq_false_iff_ne.mpr (Ne.symm hab)
  have f2 : (d.name == a.name) = false := beq_eq_false_iff_ne.mpr hda
  have f3 : (b.name == c.name) = false := beq_eq_false_iff_ne.mpr (Ne.symm hcb)
  have f4 : (d.name == c.name) = false := beq_eq_false_iff_ne.mpr hdc
  have hstep : Schema.clone ⟨{ name := nm, descriptors := [a, b, c], crs := crs }⟩
      (some { fields := some (.arr [.raw b2, .raw d]) }) =
      schemaNew (.map
        { name := some nm,
          fields := some (.arr [.wrapped a, .raw b2, .wrapped c, .raw d]) }) := by
    unfold Schema.clone
    simp [Schema.fields, Schema.name, Field.from_, entryName, List.find?,
      List.filter, List.contains, n1, hb2, n3, hda, hdb, hdc, f1, f2, f3, f4]
  refine ⟨_, hstep.trans (schemaNew_map_arr _ _ rfl), ?_⟩
  rw [Schema.fields_eq]
  rfl

/-- Witness for C2 at concrete fields A, B, C and overrides B2, D. -/
theorem schema_clone_merge_witness :
    ({ name := "A", type := "String" } : Field).name ≠
      ({ name := "B", type := "Integer" } : Field).name ∧
    ∃ s2, Schema.clone
        ⟨{ name := "s",
           descriptors := [{ name := "A", type := "String" },
                           { name := "B", type := "Integer" },
                           { name := "C", type := "Double" }] }⟩
        (some { fields := some (.arr
          [.raw { name := "B", type := "Float" },
           .raw { name := "D", type := "Long" }]) }) = .ok s2 ∧
      Schema.fields s2 = [{ name := "A", type := "String" },
                          Field.ofConfig { name := "B", type := "Float" },
                          { name := "C", type := "Double" },
                          Field.ofConfig { name := "D", type := "Long" }] :=
  ⟨by decide, schema_clone_merge "s" none
    { name := "A", type := "String" } { name := "B", type := "Integer" }
    { name := "C", type := "Double" }
    { name := "B", type := "Float" } { name := "D", type := "Long" }
    (by decide) (by decide) (by decide) (by decide) (by decide) (by decide)⟩

theorem setProp_of_not_mem (t : PropMap) (k : String) (v : Nat)
    (hk : k ∉ t.map Prod.fst) : setProp t k v = t ++ [(k, v)] := by
  induction t with
  | nil => rfl
  | cons kv rest ih =>
    simp only [List.map_cons, List.mem_cons] at hk
    push_neg at hk
    rw [setProp]
    rw [if_neg (fun e => hk.1 e.symm), ih hk.2, List.cons_append]

theorem copyProps_of_disjoint (s : PropMap) :
    ∀ t : PropMap, (s.map Prod.fst).Nodup →
      (∀ k ∈ s.map Prod.fst, k ∉ t.map Prod.fst) →
      copyProps t s = t ++ s := by
  induction s with
  | nil =>
    intro t _ _
    simp [copyProps]
  | cons kv rest ih =>
    intro t hnd hdisj
    simp only [List.map_cons, List.nodup_cons] at hnd
    have hstep : copyProps t (kv :: rest) = copyProps (setProp t kv.1 kv.2) rest := rfl
    rw [hstep, setProp_of_not_mem t kv.1 kv.2 (hdisj kv.1 (by simp))]
    rw [ih (t ++ [(kv.1, kv.2)]) hnd.2 ?_]
    · simp
    intro k hkrest
    simp only [List.map_append, List.mem_append, List.map_cons, List.map_nil,
      List.mem_singleton]
    push_neg
    refine ⟨hdisj k (by simp [hkrest]), ?_⟩
    intro hmem
    exact hnd.1 (hmem ▸ hkrest)

theorem copyProps_nil (s : PropMap) (hnd : (s.map Prod.fst).Nodup) :
    copyProps [] s = s := by
  simpa using copyProps_of_disjoint s [] hnd (by simp)

theorem Heap.read_write_ne (h : Heap) (t r : Nat) (o : PropMap) (hne : t ≠ r) :
    (h.write t o).read r = h.read r := by
  simp [Heap.read, Heap.write, List.getElem?_set_ne hne]

/-- C7: normalizing a mapping configuration over the explicit heap never
mutates the caller-supplied object: the result is a fresh object with a
different reference, holding a copy of the properties of the input, the
input object is unchanged after normalization, and any later property write
on the result leaves the input object unchanged as well. -/
theorem prepConfig_no_mutation (h : Heap) (r : Nat)
    (hr : r < h.objs.length)
    (hnd : ((Heap.read h r).map Prod.fst).Nodup) :
    (prepConfigHeap h r).2 ≠ r ∧
    Heap.read (prepConfigHeap h r).1 r = Heap.read h r ∧
    Heap.read (prepConfigHeap h r).1 (prepConfigHeap h r).2 = Heap.read h r ∧
    ∀ o : PropMap,
      Heap.read (Heap.write (prepConfigHeap h r).1 (prepConfigHeap h r).2 o) r =
        Heap.read h r := by
  have hne : h.objs.length ≠ r := (Nat.ne_of_lt hr).symm
  have hread1 : Heap.read ⟨h.objs ++ [[]]⟩ r = Heap.read h r := by
    simp [Heap.read, List.getElem?_append_left hr]
  have hreadn : Heap.read ⟨h.objs ++ [[]]⟩ h.objs.length = [] := by
    simp [Heap.read, List.getElem?_concat_length]
  have hcompute : prepConfigHeap h r =
      (Heap.write ⟨h.objs ++ [[]]⟩ h.objs.length (Heap.read h r), h.objs.length) := by
    unfold prepConfigHeap Heap.alloc applyProps
    simp only [hread1, hreadn]
    rw [copyProps_nil _ hnd]
  rw [hcompute]
  refine ⟨hne, ?_, ?_, ?_⟩
  · rw [Heap.read_write_ne _ _ _ _ hne, hread1]
  · simp [Heap.read, Heap.write]
  · intro o
    rw [Heap.read_write_ne _ _ _ _ hne, Heap.read_write_ne _ _ _ _ hne, hread1]

/-- Witness for C7 at a one-object heap whose object has one property. -/
theorem prepConfig_no_mutation_witness :
    0 < (Heap.mk [[("a", 7)]]).objs.length ∧
    ((prepConfigHeap ⟨[[("a", 7)]]⟩ 0).2 ≠ 0 ∧
      Heap.read (prepConfigHeap ⟨[[("a", 7)]]⟩ 0).1 0 = Heap.read ⟨[[("a", 7)]]⟩ 0 ∧
      Heap.read (prepConfigHeap ⟨[[("a", 7)]]⟩ 0).1 (prepConfigHeap ⟨[[("a", 7)]]⟩ 0).2 =
        Heap.read ⟨[[("a", 7)]]⟩ 0 ∧
      ∀ o : PropMap,
        Heap.read (Heap.write (prepConfigHeap ⟨[[("a", 7)]]⟩ 0).1
          (prepConfigHeap ⟨[[("a", 7)]]⟩ 0).2 o) 0 = Heap.read ⟨[[("a", 7)]]⟩ 0) :=
  ⟨by decide, prepConfig_no_mutation ⟨[[("a", 7)]]⟩ 0 (by decide) (by decide)⟩

end GeoScript
